import Mathlib

/-!
Verification of the truecivic parliamentary ingestion orchestrator.

Shallow embedding of:
- parliament/orchestration/watermarks.py (update_watermark, should_process)
- parliament/orchestration/runner.py     (HourlyRunCoordinator)
- src/adapters/base_adapter.py           (circuit breaker, retry classification)
- parliament/imports/http_retry.py       (fetch_with_backoff)
- parliament/imports/parlvotes.py        (import_votes)

Timestamps and monotonic clock readings are abstracted to natural numbers
(only their ordering matters to the code under study); float retry delays
become rationals. Database rows become record values, and raising an
exception becomes an explicit outcome constructor.
-/

namespace Watermarks

/-- JSON metadata dicts are modelled as association lists without duplicate
keys (insertion order preserved, as for Python dicts). -/
abbrev MetaDict := List (String × Int)

/-- Python dict assignment d[k] = v: replace the value in place if the key is
present, otherwise append the pair. -/
def dictInsert (d : MetaDict) (k : String) (v : Int) : MetaDict :=
  if d.any (fun p => p.1 = k) then
    d.map (fun p => if p.1 = k then (k, v) else p)
  else
    d ++ [(k, v)]

/-- Python dict merge \x7b**old, **new\x7d: the old dict updated with every
entry of the new one. -/
def dictMerge (old newEntries : MetaDict) : MetaDict :=
  newEntries.foldl (fun acc p => dictInsert acc p.1 p.2) old

/-- Stored EtlJobWatermark row (orchestration/models.py). last_token is a
blank-capable CharField, so it is a plain string whose empty value means
unset; last_timestamp is a nullable DateTimeField. -/
structure WatermarkRecord where
  last_token : String
  last_timestamp : Option Nat
  metadata : MetaDict
deriving Repr, DecidableEq

/-- Row created by get_or_create for a job that has no watermark yet:
CharField default empty, null timestamp, empty JSON dict. -/
def initialRecord : WatermarkRecord := ⟨"", none, []⟩

/-- Value object returned by get_watermark / update_watermark
(watermarks.JobWatermark); last_token or None maps the empty string to
none. -/
structure JobWatermark where
  token : Option String
  timestamp : Option Nat
  metadata : MetaDict
deriving Repr, DecidableEq

/-- watermarks._normalize_timestamp: dates are lifted to aware datetimes.  On
the abstract time axis (already totally ordered) this is the identity. -/
def normalizeTimestamp (value : Option Nat) : Option Nat := value

/-- Python truthiness of a str or None value: None and the empty string are
falsy. -/
def strTruthy : Option String → Bool
  | none => false
  | some s => s ≠ ""

/-- record.last_token or None. -/
def orNone (s : String) : Option String := if s = "" then none else some s

/-- First block of update_watermark: write the provided timestamp only when
it is truthy (non-null) and the stored one is null or strictly smaller; the
Bool is the timestamp_updated flag. -/
def timestampStep (record : WatermarkRecord) (normalized_ts : Option Nat) :
    WatermarkRecord × Bool :=
  match normalized_ts with
  | some ts =>
    match record.last_timestamp with
    | none => ({ record with last_timestamp := some ts }, true)
    | some old =>
      if old < ts then ({ record with last_timestamp := some ts }, true)
      else (record, false)
  | none => (record, false)

/-- The should_update_token flag of update_watermark: the token is written
when the timestamp advanced (or the stored one is null), when the provided
timestamp equals the stored one and the token differs, or when no timestamp
was provided and the token differs. -/
def shouldUpdateToken (record1 : WatermarkRecord) (t : String)
    (normalized_ts : Option Nat) (timestamp_updated : Bool) : Bool :=
  if record1.last_timestamp = none ∨ timestamp_updated then true
  else if normalized_ts.isSome ∧ record1.last_timestamp = normalized_ts then
    t ≠ record1.last_token
  else if normalized_ts = none then
    t ≠ record1.last_token
  else false

/-- Second block of update_watermark: write the token when truthy and
should_update_token holds. -/
def tokenStep (record1 : WatermarkRecord) (token : Option String)
    (normalized_ts : Option Nat) (timestamp_updated : Bool) : WatermarkRecord :=
  if strTruthy token then
    if shouldUpdateToken record1 (token.getD "") normalized_ts timestamp_updated then
      { record1 with last_token := token.getD "" }
    else record1
  else record1

/-- Third block of update_watermark: merge non-empty metadata into the stored
dict. -/
def metadataStep (record2 : WatermarkRecord) (metadata : MetaDict) : WatermarkRecord :=
  if metadata ≠ [] then
    { record2 with metadata := dictMerge record2.metadata metadata }
  else record2

/-- watermarks.update_watermark, as the transition it performs on the locked
row.  Mirrors the source line by line through the three blocks above. -/
def update_watermark (record : WatermarkRecord) (token : Option String)
    (timestamp : Option Nat) (metadata : MetaDict) : WatermarkRecord :=
  let normalized_ts := normalizeTimestamp timestamp
  let step1 := timestampStep record normalized_ts
  let record2 := tokenStep step1.1 token normalized_ts step1.2
  metadataStep record2 metadata

/-- The JobWatermark value update_watermark returns to its caller. -/
def update_watermark_result (record : WatermarkRecord) (token : Option String)
    (timestamp : Option Nat) (metadata : MetaDict) : JobWatermark :=
  let r := update_watermark record token timestamp metadata
  ⟨orNone r.last_token, r.last_timestamp, r.metadata⟩

/-- One call of update_watermark: the keyword arguments it was given. -/
structure UpdateCall where
  token : Option String
  timestamp : Option Nat
  metadata : MetaDict

/-- A sequence of update_watermark calls applied to a stored row. -/
def applyCalls (record : WatermarkRecord) (calls : List UpdateCall) : WatermarkRecord :=
  calls.foldl (fun r c => update_watermark r c.token c.timestamp c.metadata) record

/-- Maximum of two nullable timestamps, null counting as smallest. -/
def optMax : Option Nat → Option Nat → Option Nat
  | none, b => b
  | some a, none => some a
  | some a, some b => some (max a b)

/-- Order on nullable timestamps, null counting as smallest. -/
def optLe : Option Nat → Option Nat → Prop
  | none, _ => True
  | some _, none => False
  | some a, some b => a ≤ b

/-- Strict order on nullable timestamps, null counting as smallest. -/
def optLt : Option Nat → Option Nat → Prop
  | none, none => False
  | none, some _ => True
  | some _, none => False
  | some a, some b => a < b

/-- watermarks.should_process.  The timestamp argument is mandatory in the
source (a date or datetime, both always truthy), so it is a plain Nat here;
the stored token may be null. -/
def should_process (watermark : JobWatermark) (token : String) (timestamp : Nat) : Bool :=
  let normalized_ts := normalizeTimestamp (some timestamp)
  match watermark.timestamp with
  | none => true
  | some stored =>
    if normalized_ts.isSome ∧ stored < timestamp then true
    else some token ≠ watermark.token

/-- The C7 claim text as a predicate: true exactly when the stored timestamp
is null, or the new timestamp is strictly greater, or the tokens differ at
equal timestamps. -/
def should_process_claimed (watermark : JobWatermark) (token : String) (timestamp : Nat) : Bool :=
  match watermark.timestamp with
  | none => true
  | some stored =>
    if stored < timestamp then true
    else if stored = timestamp then some token ≠ watermark.token
    else false

end Watermarks

namespace Runner

/-- EtlJobCheckpoint.Status (orchestration/models.py). -/
inductive Status
  | idle
  | running
  | success
  | failed
  | skipped
deriving Repr, DecidableEq

/-- EtlJobCheckpoint row (orchestration/models.py).  Wall-clock datetimes are
abstracted to ticks of a single global counter; durations are tick
differences. -/
structure Checkpoint where
  last_window_start : Option Nat
  last_started_at : Option Nat
  last_completed_at : Option Nat
  last_attempt : Nat
  status : Status
  last_error : String
  last_duration_seconds : Option Nat
deriving Repr, DecidableEq

/-- Row created by get_or_create for a job with no checkpoint yet (field
defaults of the model). -/
def initialCheckpoint : Checkpoint := ⟨none, none, none, 0, .idle, "", none⟩

/-- runner.JobExecutionResult. -/
structure JobExecutionResult where
  status : Status
  attempt : Nat
  duration_seconds : Option Nat
deriving Repr, DecidableEq

/-- runner.PreparedRun. -/
structure PreparedRun where
  run_required : Bool
  attempt : Nat
deriving Repr, DecidableEq

/-- definitions.EtlJobDefinition.  func gives the outcome of the i-th
invocation of the job function within one executor call: none for a normal
return, some s for an exception whose repr renders as the string s.  The
float retry delay becomes a rational. -/
structure EtlJobDefinition where
  name : String
  func : Nat → Option String
  max_attempts : Nat
  retry_delay_seconds : ℚ
  dependencies : List String

/-- HourlyRunCoordinator._truncate_error.  The Python slice error[: limit-3]
takes the first limit-3 characters; String.length and Python len both count
code points, so the slice is modelled on the character list. -/
def truncate_error (error : String) (limit : Nat := 2000) : String :=
  if error.length ≤ limit then error
  else String.mk (error.data.take (limit - 3)) ++ "..."

/-- HourlyRunCoordinator._prepare_run as the transition on the locked row:
skip when the same window already succeeded (attempt reported as
last_attempt-or-1), otherwise bump the attempt for the same window or reset
it to 1, and stamp a RUNNING checkpoint. -/
def prepare_run (checkpoint : Checkpoint) (window : Nat) (now : Nat) :
    PreparedRun × Checkpoint :=
  if checkpoint.last_window_start = some window ∧ checkpoint.status = .success then
    (⟨false, if checkpoint.last_attempt = 0 then 1 else checkpoint.last_attempt⟩, checkpoint)
  else
    let attempt :=
      if checkpoint.last_window_start = some window then checkpoint.last_attempt + 1 else 1
    (⟨true, attempt⟩,
      { checkpoint with
        last_window_start := some window
        last_started_at := some now
        last_attempt := attempt
        status := .running
        last_error := ""
        last_duration_seconds := none })

/-- HourlyRunCoordinator._prepare_retry. -/
def prepare_retry (checkpoint : Checkpoint) (window : Nat) (now : Nat)
    (attempt : Nat) : Checkpoint :=
  { checkpoint with
    last_window_start := some window
    last_started_at := some now
    last_attempt := attempt
    status := .running
    last_error := "" }

/-- HourlyRunCoordinator._mark_success. -/
def mark_success (checkpoint : Checkpoint) (now : Nat) (attempt : Nat)
    (duration : Nat) : Checkpoint :=
  { checkpoint with
    last_completed_at := some now
    last_attempt := attempt
    status := .success
    last_error := ""
    last_duration_seconds := some duration }

/-- HourlyRunCoordinator._record_attempt_failure.  The now argument is read
only on the final attempt (the source calls timezone.now() only there). -/
def record_attempt_failure (checkpoint : Checkpoint) (attempt : Nat)
    (duration : Nat) (excRepr : String) (final : Bool) (now : Nat) : Checkpoint :=
  let cp := { checkpoint with
    last_attempt := attempt
    last_error := truncate_error excRepr
    last_duration_seconds := some duration }
  if final then { cp with last_completed_at := some now, status := .failed } else cp

/-- Insertion into a list sorted by the string order (helper for sorted).  -/
def insertSorted (s : String) : List String → List String
  | [] => [s]
  | t :: rest => if s < t then s :: t :: rest else t :: insertSorted s rest

/-- Python sorted on a list of strings. -/
def sortStrings (l : List String) : List String := l.foldr insertSorted []

/-- HourlyRunCoordinator._mark_skipped.  The skip reason is the sorted
comma-join of the unmet dependency names, falling back to a fixed phrase
when the join is empty; both timestamps come from one timezone.now() read. -/
def mark_skipped (checkpoint : Checkpoint) (window : Nat) (now : Nat)
    (unmet : List String) : Checkpoint :=
  let joined := String.intercalate ", " (sortStrings unmet)
  let reason := if joined = "" then "unknown dependency state" else joined
  { checkpoint with
    last_window_start := some window
    last_started_at := some now
    last_completed_at := some now
    last_attempt := 0
    status := .skipped
    last_error := "Skipped due to unmet dependencies: " ++ reason
    last_duration_seconds := some 0 }

/-- Output of the per-job executor: the JobExecutionResult, the final
checkpoint row, the advanced clock, how many times the job function was
invoked, and the sleeps performed between attempts (in order). -/
structure ExecOut where
  result : JobExecutionResult
  checkpoint : Checkpoint
  clock : Nat
  invocations : Nat
  sleeps : List ℚ

/-- The while-loop of HourlyRunCoordinator._execute_job.  fuel bounds the
remaining iterations (always sufficient at the call site); the loop body
mirrors the source: invoke the function, on exception record the failure
(final iff the attempt equals max_attempts), otherwise persist a retry
preparation and sleep base_delay * 2 ^ (retry_index - 1) when that backoff
is positive; on success persist SUCCESS and return. -/
def execLoop (job : EtlJobDefinition) (window start_attempt : Nat) :
    Nat → Nat → Checkpoint → Nat → Nat → List ℚ → ExecOut
  | 0, current_attempt, cp, clock, inv, sleeps =>
    ⟨⟨.failed, current_attempt, none⟩, cp, clock, inv, sleeps⟩
  | fuel + 1, current_attempt, cp, clock, inv, sleeps =>
    if job.max_attempts < current_attempt then
      ⟨⟨.failed, current_attempt, none⟩, cp, clock, inv, sleeps⟩
    else
      let start_clock := clock
      let clock := clock + 1
      let inv := inv + 1
      match job.func inv with
      | none =>
        let now1 := clock
        let clock := clock + 1
        let duration := now1 - start_clock
        let now2 := clock
        let clock := clock + 1
        let cp := mark_success cp now2 current_attempt duration
        ⟨⟨.success, current_attempt, some duration⟩, cp, clock, inv, sleeps⟩
      | some excRepr =>
        let now1 := clock
        let clock := clock + 1
        let duration := now1 - start_clock
        if current_attempt = job.max_attempts then
          let now2 := clock
          let clock := clock + 1
          let cp := record_attempt_failure cp current_attempt duration excRepr true now2
          ⟨⟨.failed, current_attempt, some duration⟩, cp, clock, inv, sleeps⟩
        else
          let cp := record_attempt_failure cp current_attempt duration excRepr false 0
          let next_attempt := current_attempt + 1
          let now3 := clock
          let clock := clock + 1
          let cp := prepare_retry cp window now3 next_attempt
          let retry_index := next_attempt - start_attempt
          let backoff := job.retry_delay_seconds * ((2 : ℚ) ^ (retry_index - 1))
          let sleeps := if 0 < backoff then sleeps ++ [backoff] else sleeps
          execLoop job window start_attempt fuel next_attempt cp clock inv sleeps

/-- HourlyRunCoordinator._execute_job. -/
def execute_job (job : EtlJobDefinition) (window : Nat) (attempt : Nat)
    (cp : Checkpoint) (clock : Nat) : ExecOut :=
  execLoop job window attempt (job.max_attempts + 2) attempt cp clock 0 []

/-- State threaded through HourlyRunCoordinator.run: the checkpoint table,
the clock, the results dict (as an ordered association list), plus
instrumentation: per-job count of job-function invocations and the sleeps
performed.  The store and clock persist across runs; results are local to
one run. -/
structure RunState where
  store : String → Checkpoint
  clock : Nat
  results : List (String × JobExecutionResult)
  invocations : String → Nat
  sleeps : List ℚ

/-- A process with empty checkpoint table, before any coordinator run. -/
def initState : RunState := ⟨fun _ => initialCheckpoint, 0, [], fun _ => 0, []⟩

/-- Write one row of the checkpoint table. -/
def updateStore (store : String → Checkpoint) (name : String) (cp : Checkpoint) :
    String → Checkpoint :=
  fun n => if n = name then cp else store n

/-- Add k job-function invocations to the per-job instrumentation counter. -/
def bumpInvocations (f : String → Nat) (name : String) (k : Nat) : String → Nat :=
  fun n => if n = name then f n + k else f n

/-- results dict lookup. -/
def lookupResult (results : List (String × JobExecutionResult)) (name : String) :
    Option JobExecutionResult :=
  (results.find? (fun p => p.1 == name)).map (fun p => p.2)

/-- HourlyRunCoordinator._unmet_dependencies: dependencies absent from the
results dict or present with a non-SUCCESS status. -/
def unmet_dependencies (dependencies : List String)
    (results : List (String × JobExecutionResult)) : List String :=
  dependencies.filter (fun dep =>
    match lookupResult results dep with
    | some r => decide (r.status ≠ Status.success)
    | none => true)

/-- The skip condition of the run loop: some dependency already has a
recorded result whose status is not SUCCESS. -/
def depFailed (dependencies : List String)
    (results : List (String × JobExecutionResult)) : Bool :=
  dependencies.any (fun dep =>
    match lookupResult results dep with
    | some r => decide (r.status ≠ Status.success)
    | none => false)

/-- One scan of the pending list in HourlyRunCoordinator.run.  Returns the
jobs left pending, the results of the jobs submitted to the executor during
this scan (recorded into the dict only after the scan, as the source only
sees them after wait), and the advanced state.  The executor is modelled
synchronously: a submitted job runs at its submission point, which realises
the schedule in which every future completes before the next scan. -/
def scanPass (window : Nat) :
    List EtlJobDefinition → RunState →
      List EtlJobDefinition × List (String × JobExecutionResult) × RunState
  | [], st => ([], [], st)
  | job :: rest, st =>
    let unmet := unmet_dependencies job.dependencies st.results
    if unmet ≠ [] ∧ depFailed job.dependencies st.results then
      let now := st.clock
      let cp := mark_skipped (st.store job.name) window now unmet
      let st := { st with
        store := updateStore st.store job.name cp
        clock := st.clock + 1
        results := st.results ++ [(job.name, ⟨.skipped, 0, some 0⟩)] }
      scanPass window rest st
    else if unmet ≠ [] then
      let out := scanPass window rest st
      (job :: out.1, out.2.1, out.2.2)
    else
      let now := st.clock
      let prep := prepare_run (st.store job.name) window now
      let st := { st with
        store := updateStore st.store job.name prep.2
        clock := st.clock + 1 }
      if prep.1.run_required then
        let out := execute_job job window prep.1.attempt (st.store job.name) st.clock
        let st := { st with
          store := updateStore st.store job.name out.checkpoint
          clock := out.clock
          invocations := bumpInvocations st.invocations job.name out.invocations
          sleeps := st.sleeps ++ out.sleeps }
        let next := scanPass window rest st
        (next.1, (job.name, out.result) :: next.2.1, next.2.2)
      else
        let st := { st with
          results := st.results ++ [(job.name, ⟨.success, prep.1.attempt, some 0⟩)] }
        scanPass window rest st

/-- The while-loop of HourlyRunCoordinator.run: scan, break when nothing was
submitted, otherwise record the collected results and scan again.  fuel
bounds the passes; every continued pass shrank the pending list, so the
caller passes enough fuel for the break to be reached first. -/
def runLoop (window : Nat) :
    Nat → List EtlJobDefinition → RunState → List EtlJobDefinition × RunState
  | 0, pending, st => (pending, st)
  | fuel + 1, pending, st =>
    if pending.isEmpty then ([], st)
    else
      let out := scanPass window pending st
      if out.2.1.isEmpty then (out.1, out.2.2)
      else runLoop window fuel out.1 { out.2.2 with results := out.2.2.results ++ out.2.1 }

/-- The trailing loop of HourlyRunCoordinator.run: any job still pending is
marked SKIPPED with its unmet dependencies as the reason. -/
def markAllSkipped (window : Nat) : List EtlJobDefinition → RunState → RunState
  | [], st => st
  | job :: rest, st =>
    let unmet := unmet_dependencies job.dependencies st.results
    let now := st.clock
    let cp := mark_skipped (st.store job.name) window now unmet
    markAllSkipped window rest { st with
      store := updateStore st.store job.name cp
      clock := st.clock + 1
      results := st.results ++ [(job.name, ⟨.skipped, 0, some 0⟩)] }

/-- HourlyRunCoordinator.run for one window: the final state carries the
results dict the method returns. -/
def run (jobs : List EtlJobDefinition) (window : Nat) (st : RunState) : RunState :=
  let out := runLoop window (jobs.length + 1) jobs st
  markAllSkipped window out.1 out.2

/-- A second coordinator execution in the same process: the checkpoint
table, clock and instrumentation persist, the results dict starts empty. -/
def freshRun (st : RunState) : RunState := { st with results := [] }

/-- The executor call run performs for a ready job whose prepare_run said
run is required: attempt and checkpoint come from that prepare_run, the
clock was advanced once by its timezone.now() read. -/
def singleRunOut (job : EtlJobDefinition) (window : Nat) (st : RunState) : ExecOut :=
  execute_job job window (prepare_run (st.store job.name) window st.clock).1.attempt
    (prepare_run (st.store job.name) window st.clock).2 (st.clock + 1)

/-- A two-job coordinator run from a fresh process state. -/
def pairRun (A B : EtlJobDefinition) (window : Nat) : RunState :=
  run [A, B] window initState

end Runner


namespace Adapter

/-- Circuit breaker state of a BaseAdapter instance
(src/adapters/base_adapter.py): the consecutive terminal failure counter and
the monotonic deadline until which the circuit stays open.  Monotonic clock
readings are rationals. -/
structure AdapterState where
  consecutive_failures : Nat
  circuit_open_until : Option ℚ
deriving Repr, DecidableEq

/-- BaseAdapter.__init__ wiring for the breaker: threshold and cooldown. -/
structure AdapterConfig where
  circuit_breaker_threshold : Nat
  circuit_breaker_cooldown : ℚ
deriving Repr, DecidableEq

/-- The clamping BaseAdapter.__init__ applies: threshold at least 1,
cooldown at least 5 seconds. -/
def initConfig (threshold : Nat) (cooldown : ℚ) : AdapterConfig :=
  ⟨max 1 threshold, max 5 cooldown⟩

/-- The state a fresh adapter starts in. -/
def initAdapterState : AdapterState := ⟨0, none⟩

/-- BaseAdapter._register_failure at monotonic time now: bump the counter;
once it reaches the threshold, open the circuit until now + cooldown and
reset the counter to zero. -/
def register_failure (cfg : AdapterConfig) (now : ℚ) (st : AdapterState) : AdapterState :=
  if st.consecutive_failures + 1 < cfg.circuit_breaker_threshold then
    { st with consecutive_failures := st.consecutive_failures + 1 }
  else ⟨0, some (now + cfg.circuit_breaker_cooldown)⟩

/-- A sequence of _register_failure calls at the given monotonic times. -/
def registerFailures (cfg : AdapterConfig) (times : List ℚ) (st : AdapterState) : AdapterState :=
  times.foldl (fun s t => register_failure cfg t s) st

/-- BaseAdapter._ensure_circuit_allowance at monotonic time now: none means
CircuitBreakerOpenError is raised; some gives the state after the check
(cleared when the cooldown elapsed). -/
def ensure_circuit_allowance (now : ℚ) (st : AdapterState) : Option AdapterState :=
  match st.circuit_open_until with
  | none => some st
  | some deadline =>
    if deadline ≤ now then some ⟨0, none⟩
    else none

/-- The head of one _request_with_retries iteration: the circuit check runs
before the HTTP request is issued, so when it raises, the HTTP request
counter is untouched; otherwise one request is performed. -/
def request_attempt_gate (now : ℚ) (st : AdapterState) (http_request_count : Nat) :
    Option AdapterState × Nat :=
  match ensure_circuit_allowance now st with
  | none => (none, http_request_count)
  | some st1 => (some st1, http_request_count + 1)

/-- The inline success branch of _request_with_retries (a response whose
status is not retryable): clear both the failure counter and the open
deadline. -/
def record_success_reset (_st : AdapterState) : AdapterState :=
  ⟨0, none⟩

/-- BaseAdapter._should_retry_status. -/
def should_retry_status (status_code : Nat) : Bool :=
  if status_code = 429 ∨ status_code = 503 then true
  else if 500 ≤ status_code ∧ status_code < 600 then true
  else if status_code = 408 ∨ status_code = 425 then true
  else false

end Adapter

namespace HttpRetry

/-- DEFAULT_RETRY_STATUS of parliament/imports/http_retry.py. -/
def DEFAULT_RETRY_STATUS : List Nat := [408, 425, 429, 500, 502, 503, 504]

/-- What a loop iteration of fetch_with_backoff raised, when it raised:
the explicit HttpRequestError (carrying the response status), or the
requests.HTTPError coming from raise_for_status on an error response. -/
inductive LastErr
  | httpReqErr (status : Nat)
  | statusExc (status : Nat)
deriving Repr, DecidableEq

/-- Result of fetch_with_backoff: a returned response (its status), or an
HttpRequestError surfaced to the caller carrying the last status, none when
the final failure wrapped an exception that was not an HttpRequestError. -/
inductive FetchOutcome
  | ok (status : Nat)
  | raised (status : Option Nat)
deriving Repr, DecidableEq

/-- The re-raise after the loop: an HttpRequestError re-raised as is; any
other exception wrapped into HttpRequestError(url, None, str(exc)). -/
def finalRaise : Option LastErr → FetchOutcome
  | some (.httpReqErr s) => .raised (some s)
  | some (.statusExc _) => .raised none
  | none => .raised none

/-- requests raise_for_status raises for any 4xx or 5xx status code. -/
def raiseForStatusRaises (status : Nat) : Bool :=
  decide (400 ≤ status ∧ status < 600)

/-- The while-loop of fetch_with_backoff.  responses gives the status of the
i-th HTTP request of this call (1-indexed); transport-level exceptions are
not modelled (every request completes with a status).  Every raise inside
the try block lands in the blanket except which counts the attempt, sleeps
when attempts remain and retries.  Returns (outcome, requests performed,
sleeps performed). -/
def fetchLoop (responses : Nat → Nat) (retries : Nat) (retrySet allowed : List Nat) :
    Nat → Option LastErr → Nat → Nat → Nat → FetchOutcome × Nat × Nat
  | _, lastError, requests, sleeps, 0 => (finalRaise lastError, requests, sleeps)
  | attempt, lastError, requests, sleeps, fuel + 1 =>
    if retries < attempt then (finalRaise lastError, requests, sleeps)
    else
      let status := responses (requests + 1)
      let raised : Option LastErr :=
        if allowed ≠ [] then
          if status ∈ allowed then none
          else some (.httpReqErr status)
        else if status ∈ retrySet then some (.httpReqErr status)
        else if raiseForStatusRaises status then some (.statusExc status)
        else none
      match raised with
      | none => (.ok status, requests + 1, sleeps)
      | some e =>
        if retries < attempt + 1 then (finalRaise (some e), requests + 1, sleeps)
        else
          fetchLoop responses retries retrySet allowed (attempt + 1) (some e)
            (requests + 1) (sleeps + 1) fuel

/-- fetch_with_backoff, attempt counter starting at 0, no error yet. -/
def fetch_with_backoff (responses : Nat → Nat) (retries : Nat)
    (retrySet allowed : List Nat) : FetchOutcome × Nat × Nat :=
  fetchLoop responses retries retrySet allowed 0 none 0 0 (retries + 2)

end HttpRetry

namespace Adapter

/-- The status-classification path of BaseAdapter._request_with_retries for
a call whose requests all complete with a status (no transport exception,
circuit closed): attempt counts up from 1, a retryable status sleeps and
retries until attempt exceeds max_retries (then the failure is raised,
modelled as none), any other status returns the response.  Returns
(returned status or none, requests performed, sleeps performed). -/
def requestStatusLoop (max_retries : Nat) (responses : Nat → Nat) :
    Nat → Nat → Nat → Nat → Option Nat × Nat × Nat
  | _, requests, sleeps, 0 => (none, requests, sleeps)
  | attempt, requests, sleeps, fuel + 1 =>
    let status := responses (requests + 1)
    if should_retry_status status then
      if max_retries < attempt + 1 then (none, requests + 1, sleeps)
      else requestStatusLoop max_retries responses (attempt + 1) (requests + 1) (sleeps + 1) fuel
    else (some status, requests + 1, sleeps)

/-- _request_with_retries on the status path, attempts starting at 1. -/
def request_with_retries_statuses (max_retries : Nat) (responses : Nat → Nat) :
    Option Nat × Nat × Nat :=
  requestStatusLoop max_retries responses 0 0 0 (max_retries + 2)

end Adapter

namespace ParlVotes

/-- One Vote element of the vote-list XML, reduced to the fields
import_votes reads: parliament and session numbers, the decision division
number, the event datetime (abstracted to Nat), the decision result name,
and whether the French-description XPath lookup will succeed. -/
structure VoteRecord where
  parliament : Int
  session : Int
  vote_number : Int
  event_dt : Nat
  decision : String
  french_ok : Bool
deriving Repr, DecidableEq

/-- The stored "votes" watermark as import_votes reads it: timestamp, token
and the metadata keys it consults; a missing or non-integer metadata entry
is none. -/
structure VotesWatermark where
  timestamp : Option Nat
  token : Option String
  meta_parliament : Option Int
  meta_session : Option Int
  meta_vote : Option Int
deriving Repr, DecidableEq

/-- Database context: the (parliament, session, vote_number) triples that
already have a VoteQuestion row. -/
structure VotesDb where
  existing : List (Int × Int × Int)
deriving Repr, DecidableEq

/-- Trace events of one import_votes run. -/
inductive Event
  | skippedWatermark (parliament session vote_number : Int)
  | skippedExisting (parliament session vote_number : Int)
  | processed (parliament session vote_number : Int)
  | watermarkUpdated (token : Option String) (timestamp : Option Nat)
deriving Repr, DecidableEq

/-- Is the event the watermark write? -/
def Event.isUpdate : Event → Bool
  | .watermarkUpdated _ _ => true
  | _ => false

/-- The exceptions of import_votes relevant here: the NameError raised by
evaluating the unbound name votelisturl. -/
inductive PyErr
  | nameError (name : String)
deriving Repr, DecidableEq

/-- The DecisionResultName dispatch of import_votes.  On an unrecognised
decision the source raises an Exception whose message interpolates decision
and votelisturl; votelisturl is bound nowhere in the function (only
votelisturl_en and votelisturl_fr are), so evaluating the format arguments
raises NameError for votelisturl before the intended Exception is even
constructed. -/
def decisionResult (decision : String) : Except PyErr Char :=
  if decision = "Agreed to" ∨ decision = "Agreed To" then .ok 'Y'
  else if decision = "Negatived" then .ok 'N'
  else if decision = "Tie" then .ok 'T'
  else .error (.nameError "votelisturl")

/-- The watermark comparison of import_votes for one vote: strictly before
the stored timestamp, or equal to it with matching parliament and session
metadata, an integer recorded vote number, and a vote number at or below
it. -/
def skipDueToWatermark (wm : VotesWatermark) (v : VoteRecord) : Bool :=
  match wm.timestamp with
  | none => false
  | some wts =>
    if v.event_dt < wts then true
    else if v.event_dt = wts then
      match wm.meta_vote with
      | some n =>
        decide (wm.meta_parliament = some v.parliament)
          && decide (wm.meta_session = some v.session)
          && decide (v.vote_number ≤ n)
      | none => false
    else false

/-- The running latest-record state of import_votes: the database plus
latest_timestamp, latest_token and latest_meta.get("vote", -1). -/
structure ImportState where
  db : VotesDb
  latest_timestamp : Option Nat
  latest_token : Option String
  latest_meta_vote : Int
deriving Repr, DecidableEq

/-- The shared advance test: latest_timestamp is None, or the event is
strictly newer, or equally new with a larger vote number than
latest_meta.get("vote", -1). -/
def latestAdvances (latest_timestamp : Option Nat) (latest_meta_vote : Int)
    (v : VoteRecord) : Bool :=
  match latest_timestamp with
  | none => true
  | some lt =>
    if lt < v.event_dt then true
    else if v.event_dt = lt then decide (latest_meta_vote < v.vote_number)
    else false

/-- The token f-string "parliament:session:votenumber". -/
def voteToken (v : VoteRecord) : String :=
  toString v.parliament ++ ":" ++ toString v.session ++ ":" ++ toString v.vote_number

/-- Advance the latest-record fields for a vote when it advances them. -/
def applyLatest (st : ImportState) (v : VoteRecord) : ImportState :=
  if latestAdvances st.latest_timestamp st.latest_meta_vote v then
    { st with
      latest_timestamp := some v.event_dt
      latest_token := some (voteToken v)
      latest_meta_vote := v.vote_number }
  else st

/-- One iteration of the vote loop in import_votes.  A vote both behind the
watermark and already present is skipped outright; an already present vote
otherwise only advances the latest-record fields; a new vote is fully
processed: its decision is parsed (possibly raising the NameError above),
a failing French-description lookup is logged and processing continues, the
VoteQuestion row is inserted, and the latest-record fields advance. -/
def importStep (wm : VotesWatermark) (st : ImportState) (v : VoteRecord) :
    Except PyErr (ImportState × Event) :=
  if skipDueToWatermark wm v
      && decide ((v.parliament, v.session, v.vote_number) ∈ st.db.existing) then
    .ok (st, .skippedWatermark v.parliament v.session v.vote_number)
  else if decide ((v.parliament, v.session, v.vote_number) ∈ st.db.existing) then
    .ok (applyLatest st v, .skippedExisting v.parliament v.session v.vote_number)
  else
    match decisionResult v.decision with
    | .error e => .error e
    | .ok _ =>
      .ok (applyLatest
          { st with db := ⟨st.db.existing ++ [(v.parliament, v.session, v.vote_number)]⟩ } v,
        .processed v.parliament v.session v.vote_number)

/-- The vote loop of import_votes, collecting the trace. -/
def importLoop (wm : VotesWatermark) : ImportState → List VoteRecord →
    Except PyErr (ImportState × List Event)
  | st, [] => .ok (st, [])
  | st, v :: rest =>
    match importStep wm st v with
    | .error e => .error e
    | .ok (st1, ev) =>
      match importLoop wm st1 rest with
      | .error e => .error e
      | .ok (st2, evs) => .ok (st2, ev :: evs)

/-- The state import_votes starts its loop with: latest fields seeded from
the stored watermark, latest_meta.get("vote", -1) defaulting to -1. -/
def initImportState (wm : VotesWatermark) (db : VotesDb) : ImportState :=
  ⟨db, wm.timestamp, wm.token, wm.meta_vote.getD (-1)⟩

/-- The post-loop condition guarding the single update_watermark call:
latest_timestamp truthy, and null stored timestamp or a strictly newer
latest or a changed token. -/
def shouldWriteWatermark (wm : VotesWatermark) (st : ImportState) : Bool :=
  match st.latest_timestamp with
  | none => false
  | some lt =>
    match wm.timestamp with
    | none => true
    | some wts => decide (wts < lt) || decide (st.latest_token ≠ wm.token)

/-- import_votes for one run over the fetched vote list: run the loop in
one transaction, then write the watermark at most once, after all records
have been processed. -/
def import_votes (wm : VotesWatermark) (db : VotesDb) (votes : List VoteRecord) :
    Except PyErr (ImportState × List Event) :=
  match importLoop wm (initImportState wm db) votes with
  | .error e => .error e
  | .ok (st, evs) =>
    if shouldWriteWatermark wm st then
      .ok (st, evs ++ [.watermarkUpdated st.latest_token st.latest_timestamp])
    else .ok (st, evs)

/-- The skip condition the C9 claim (as amended) describes, written from
its words: the vote is strictly before the stored timestamp, or at an equal
timestamp with matching parliament and session and a vote number at or
below the recorded one -- and in either case the vote already exists in the
database. -/
def skipGateSpec (wm : VotesWatermark) (db : VotesDb) (v : VoteRecord) : Prop :=
  ((∃ wts, wm.timestamp = some wts ∧ v.event_dt < wts)
    ∨ (∃ wts n, wm.timestamp = some wts ∧ v.event_dt = wts
        ∧ wm.meta_parliament = some v.parliament
        ∧ wm.meta_session = some v.session
        ∧ wm.meta_vote = some n ∧ v.vote_number ≤ n))
  ∧ (v.parliament, v.session, v.vote_number) ∈ db.existing

end ParlVotes



namespace Watermarks

theorem tokenStep_timestamp (record1 : WatermarkRecord) (token : Option String)
    (normalized_ts : Option Nat) (timestamp_updated : Bool) :
    (tokenStep record1 token normalized_ts timestamp_updated).last_timestamp
      = record1.last_timestamp := by
  unfold tokenStep
  repeat' split
  all_goals rfl

theorem metadataStep_timestamp (record2 : WatermarkRecord) (metadata : MetaDict) :
    (metadataStep record2 metadata).last_timestamp = record2.last_timestamp := by
  unfold metadataStep
  split <;> rfl

theorem timestampStep_timestamp (record : WatermarkRecord) (normalized_ts : Option Nat) :
    (timestampStep record normalized_ts).1.last_timestamp
      = optMax record.last_timestamp normalized_ts := by
  unfold timestampStep optMax
  cases normalized_ts with
  | none => cases record.last_timestamp <;> rfl
  | some ts =>
    cases hrec : record.last_timestamp with
    | none => rfl
    | some old =>
      by_cases hlt : old < ts
      · simp [hlt, Nat.max_eq_right (Nat.le_of_lt hlt)]
      · simp [hlt, Nat.max_eq_left (Nat.le_of_not_lt hlt), hrec]

theorem update_watermark_timestamp_eq (record : WatermarkRecord)
    (token : Option String) (timestamp : Option Nat) (metadata : MetaDict) :
    (update_watermark record token timestamp metadata).last_timestamp
      = optMax record.last_timestamp timestamp := by
  unfold update_watermark
  rw [metadataStep_timestamp, tokenStep_timestamp, timestampStep_timestamp]
  rfl

theorem optLe_optMax_left (a b : Option Nat) : optLe a (optMax a b) := by
  cases a <;> cases b <;> simp [optLe, optMax]

theorem optMax_ne_iff (a b : Option Nat) :
    optMax a b ≠ a ↔ ∃ v, b = some v ∧ optLt a (some v) := by
  cases a with
  | none => cases b <;> simp [optMax, optLt]
  | some x =>
    cases b with
    | none => simp [optMax, optLt]
    | some v =>
      simp only [optMax, optLt, ne_eq, Option.some.injEq]
      constructor
      · intro h
        exact ⟨v, rfl, by omega⟩
      · rintro ⟨w, hw, hlt⟩
        cases hw
        omega

theorem applyCalls_timestamp (record : WatermarkRecord) (calls : List UpdateCall) :
    (applyCalls record calls).last_timestamp
      = calls.foldl (fun acc c => optMax acc c.timestamp) record.last_timestamp := by
  induction calls generalizing record with
  | nil => rfl
  | cons c rest ih =>
    simp only [applyCalls, List.foldl_cons]
    rw [← applyCalls, ih, update_watermark_timestamp_eq]

/-- C1: watermark monotonicity.  A single update_watermark never decreases
the stored last_timestamp; after any sequence of calls the stored
last_timestamp is the running maximum of the initial value and every
provided timestamp (null counting as smallest); and a call changes the
stored timestamp exactly when it provides one strictly greater than the
stored value (a null stored timestamp counting as smaller than any provided
one). -/
theorem watermark_monotonicity (record : WatermarkRecord)
    (token : Option String) (timestamp : Option Nat) (metadata : MetaDict)
    (calls : List UpdateCall) :
    optLe record.last_timestamp
        (update_watermark record token timestamp metadata).last_timestamp
    ∧ (applyCalls record calls).last_timestamp
        = calls.foldl (fun acc c => optMax acc c.timestamp) record.last_timestamp
    ∧ ((update_watermark record token timestamp metadata).last_timestamp
          ≠ record.last_timestamp
        ↔ ∃ v, timestamp = some v ∧ optLt record.last_timestamp (some v)) := by
  refine ⟨?_, applyCalls_timestamp record calls, ?_⟩
  · rw [update_watermark_timestamp_eq]
    exact optLe_optMax_left _ _
  · rw [update_watermark_timestamp_eq]
    exact optMax_ne_iff _ _

/-- C7 (amended): truth conditions of should_process.  It returns true
exactly when the stored timestamp is null, or the new timestamp is strictly
greater than the stored one, or the provided token differs from the stored
one — with no requirement that the timestamps be equal for the token
disjunct. -/
theorem should_process_truth_conditions (watermark : JobWatermark)
    (token : String) (timestamp : Nat) :
    should_process watermark token timestamp = true
      ↔ (watermark.timestamp = none
          ∨ (∃ stored, watermark.timestamp = some stored ∧ stored < timestamp)
          ∨ some token ≠ watermark.token) := by
  cases hts : watermark.timestamp with
  | none => simp [should_process, hts]
  | some stored =>
    by_cases hlt : stored < timestamp
    · simp [should_process, hts, hlt, normalizeTimestamp]
    · simp [should_process, hts, hlt, normalizeTimestamp]

/-- C7 counterexample: with stored token "a" and stored timestamp 5, a
record carrying token "b" and the strictly older timestamp 3 makes
should_process return true, while the claimed condition (tokens differing
only at equal timestamps) evaluates to false. -/
theorem should_process_claim_counterexample :
    should_process ⟨some "a", some 5, []⟩ "b" 3 = true
    ∧ should_process_claimed ⟨some "a", some 5, []⟩ "b" 3 = false := by
  exact ⟨by decide, by decide⟩


end Watermarks

namespace Runner

theorem truncate_error_length (error : String) :
    (truncate_error error 2000).length ≤ 2000 := by
  unfold truncate_error
  split
  · omega
  · rw [String.length_append]
    have h1 : (String.mk (error.data.take (2000 - 3))).length ≤ 2000 - 3 := by
      show (error.data.take (2000 - 3)).length ≤ 2000 - 3
      simp
    have h2 : ("..." : String).length = 3 := rfl
    omega

theorem truncate_error_ellipsis (error : String) (hlong : 2000 < error.length) :
    ∃ p, truncate_error error 2000 = p ++ "..."
      ∧ (truncate_error error 2000).length = 2000 := by
  unfold truncate_error
  rw [if_neg (by omega)]
  refine ⟨String.mk (error.data.take (2000 - 3)), rfl, ?_⟩
  rw [String.length_append]
  have h1 : (String.mk (error.data.take (2000 - 3))).length = 2000 - 3 := by
    show (error.data.take (2000 - 3)).length = 2000 - 3
    have : error.data.length = error.length := rfl
    rw [List.length_take]
    omega
  have h2 : ("..." : String).length = 3 := rfl
  omega

end Runner

namespace Runner

theorem execLoop_allFail (job : EtlJobDefinition) (window s : Nat) (j : Nat) :
    ∀ (fuel c : Nat) (cp : Checkpoint) (clock inv : Nat) (sleeps : List ℚ),
      c + j = job.max_attempts →
      j < fuel →
      (∀ d, d ≤ j → (job.func (inv + 1 + d)).isSome) →
      ((execLoop job window s fuel c cp clock inv sleeps).result.status = Status.failed
      ∧ (execLoop job window s fuel c cp clock inv sleeps).result.attempt = job.max_attempts
      ∧ (execLoop job window s fuel c cp clock inv sleeps).invocations = inv + j + 1
      ∧ (execLoop job window s fuel c cp clock inv sleeps).checkpoint.status = Status.failed
      ∧ (execLoop job window s fuel c cp clock inv sleeps).checkpoint.last_attempt = job.max_attempts
      ∧ (execLoop job window s fuel c cp clock inv sleeps).checkpoint.last_error
          = truncate_error ((job.func (inv + j + 1)).getD "")) := by
  induction j with
  | zero =>
    intro fuel c cp clock inv sleeps hmax hfuel hfail
    obtain ⟨f, rfl⟩ : ∃ f, fuel = f + 1 := ⟨fuel - 1, by omega⟩
    have hc : c = job.max_attempts := by omega
    obtain ⟨e, he⟩ := Option.isSome_iff_exists.mp (hfail 0 (by omega))
    simp only [Nat.add_zero] at he
    subst hc
    simp only [execLoop, lt_irrefl, if_neg (lt_irrefl _), he]
    simp only [if_pos rfl, record_attempt_failure, mark_success]
    refine ⟨rfl, rfl, rfl, rfl, rfl, rfl⟩
  | succ j ih =>
    intro fuel c cp clock inv sleeps hmax hfuel hfail
    obtain ⟨f, rfl⟩ : ∃ f, fuel = f + 1 := ⟨fuel - 1, by omega⟩
    obtain ⟨e, he⟩ := Option.isSome_iff_exists.mp (hfail 0 (by omega))
    simp only [Nat.add_zero] at he
    have hne : ¬ c = job.max_attempts := by omega
    have hng : ¬ job.max_attempts < c := by omega
    simp only [execLoop, if_neg hng, he, if_neg hne]
    have harg : ∀ d, d ≤ j → ((job.func (inv + 1 + 1 + d)).isSome) := by
      intro d hd
      have : inv + 1 + 1 + d = inv + 1 + (d + 1) := by omega
      rw [this]
      exact hfail (d + 1) (by omega)
    have hidx : inv + 1 + j + 1 = inv + (j + 1) + 1 := by omega
    obtain ⟨h1, h2, h3, h4, h5, h6⟩ := ih f (c + 1) _ _ (inv + 1) _ (by omega) (by omega) harg
    rw [hidx] at h3 h6
    exact ⟨h1, h2, h3, h4, h5, h6⟩

end Runner

namespace Runner

theorem execLoop_failUpTo (job : EtlJobDefinition) (window s : Nat)
    (hdelay : 0 < job.retry_delay_seconds) (j : Nat) :
    ∀ (fuel c : Nat) (cp : Checkpoint) (clock inv : Nat) (sleeps : List ℚ),
      c + j ≤ job.max_attempts →
      j < fuel →
      (∀ d, d < j → (job.func (inv + 1 + d)).isSome) →
      job.func (inv + j + 1) = none →
      ((execLoop job window s fuel c cp clock inv sleeps).result.status = Status.success
      ∧ (execLoop job window s fuel c cp clock inv sleeps).result.attempt = c + j
      ∧ (execLoop job window s fuel c cp clock inv sleeps).invocations = inv + j + 1
      ∧ (execLoop job window s fuel c cp clock inv sleeps).checkpoint.status = Status.success
      ∧ (execLoop job window s fuel c cp clock inv sleeps).checkpoint.last_attempt = c + j
      ∧ (cp.last_window_start = some window →
          (execLoop job window s fuel c cp clock inv sleeps).checkpoint.last_window_start
            = some window)
      ∧ (execLoop job window s fuel c cp clock inv sleeps).sleeps
          = sleeps ++ (List.range j).map
              (fun d => job.retry_delay_seconds * ((2 : ℚ) ^ (c + d + 1 - s - 1)))) := by
  induction j with
  | zero =>
    intro fuel c cp clock inv sleeps hmax hfuel hfail hsucc
    obtain ⟨f, rfl⟩ : ∃ f, fuel = f + 1 := ⟨fuel - 1, by omega⟩
    simp only [Nat.add_zero] at hsucc
    have hng : ¬ job.max_attempts < c := by omega
    simp only [execLoop, if_neg hng, hsucc, mark_success]
    refine ⟨by simp, by simp, by simp, by simp, by simp, fun hw => by simp [hw], by simp⟩
  | succ j ih =>
    intro fuel c cp clock inv sleeps hmax hfuel hfail hsucc
    obtain ⟨f, rfl⟩ : ∃ f, fuel = f + 1 := ⟨fuel - 1, by omega⟩
    obtain ⟨e, he⟩ := Option.isSome_iff_exists.mp (hfail 0 (by omega))
    simp only [Nat.add_zero] at he
    have hne : ¬ c = job.max_attempts := by omega
    have hng : ¬ job.max_attempts < c := by omega
    have hpos : 0 < job.retry_delay_seconds * ((2 : ℚ) ^ (c + 1 - s - 1)) := by
      apply mul_pos hdelay
      positivity
    simp only [execLoop, if_neg hng, he, if_neg hne, if_pos hpos]
    have harg : ∀ d, d < j → ((job.func (inv + 1 + 1 + d)).isSome) := by
      intro d hd
      have hidx : inv + 1 + 1 + d = inv + 1 + (d + 1) := by omega
      rw [hidx]
      exact hfail (d + 1) (by omega)
    have hsucc2 : job.func (inv + 1 + j + 1) = none := by
      have hidx : inv + 1 + j + 1 = inv + (j + 1) + 1 := by omega
      rw [hidx]
      exact hsucc
    obtain ⟨h1, h2, h3, h4, h5, h6, h7⟩ :=
      ih f (c + 1)
        (prepare_retry (record_attempt_failure cp c (clock + 1 - clock) e false 0) window
          (clock + 1 + 1) (c + 1))
        (clock + 1 + 1 + 1) (inv + 1)
        (sleeps ++ [job.retry_delay_seconds * 2 ^ (c + 1 - s - 1)])
        (by omega) (by omega) harg hsucc2
    refine ⟨h1, ?_, ?_, h4, ?_, fun _ => h6 rfl, ?_⟩
    · rw [h2]
      omega
    · rw [h3]
      omega
    · rw [h5]
      omega
    · rw [h7]
      have htail : List.map ((fun d => job.retry_delay_seconds * (2 : ℚ) ^ (c + d + 1 - s - 1)) ∘ Nat.succ)
            (List.range j)
          = List.map (fun d => job.retry_delay_seconds * (2 : ℚ) ^ (c + 1 + d + 1 - s - 1))
            (List.range j) := by
        apply List.map_congr_left
        intro a ha
        simp only [Function.comp]
        congr 2
        omega
      rw [List.range_succ_eq_map, List.map_cons, List.map_map, htail,
        List.append_assoc, List.singleton_append]

/-- C5: final failure.  A job whose function raises on every one of its
max_attempts invocations (there being at least one attempt) is recorded by
the executor with a FAILED result and checkpoint, last_attempt equal to
max_attempts, and a persisted last_error of length at most 2000 characters
which ends in the ellipsis marker whenever the original exception rendering
exceeded 2000 characters. -/
theorem final_failure (job : EtlJobDefinition) (window : Nat) (cp : Checkpoint)
    (clock : Nat)
    (hmax : 1 ≤ job.max_attempts)
    (hfail : ∀ i, 1 ≤ i → i ≤ job.max_attempts → (job.func i).isSome) :
    (execute_job job window 1 cp clock).result.status = Status.failed
    ∧ (execute_job job window 1 cp clock).result.attempt = job.max_attempts
    ∧ (execute_job job window 1 cp clock).checkpoint.status = Status.failed
    ∧ (execute_job job window 1 cp clock).checkpoint.last_attempt = job.max_attempts
    ∧ (execute_job job window 1 cp clock).checkpoint.last_error
        = truncate_error ((job.func job.max_attempts).getD "")
    ∧ (execute_job job window 1 cp clock).checkpoint.last_error.length ≤ 2000
    ∧ (2000 < ((job.func job.max_attempts).getD "").length →
        ∃ p, (execute_job job window 1 cp clock).checkpoint.last_error = p ++ "..."
          ∧ (execute_job job window 1 cp clock).checkpoint.last_error.length = 2000) := by
  simp only [execute_job]
  have harg : ∀ d, d ≤ job.max_attempts - 1 → ((job.func (0 + 1 + d)).isSome) := by
    intro d hd
    have hidx : 0 + 1 + d = d + 1 := by omega
    rw [hidx]
    exact hfail (d + 1) (by omega) (by omega)
  obtain ⟨h1, h2, h3, h4, h5, h6⟩ :=
    execLoop_allFail job window 1 (job.max_attempts - 1) (job.max_attempts + 2) 1 cp clock 0 []
      (by omega) (by omega) harg
  have hidx2 : 0 + (job.max_attempts - 1) + 1 = job.max_attempts := by omega
  rw [hidx2] at h6
  refine ⟨h1, h2, h4, h5, h6, ?_, ?_⟩
  · rw [h6]
    exact truncate_error_length _
  · intro hlong
    rw [h6]
    exact truncate_error_ellipsis _ hlong

/-- Closed instance of final_failure: a three-attempt job that always raises
"boom" ends FAILED with last_attempt 3 and last_error "boom". -/
theorem final_failure_witness :
    (execute_job ⟨"jobx", fun _ => some "boom", 3, 60, []⟩ 7 1 initialCheckpoint 0).result.status
        = Status.failed
    ∧ (execute_job ⟨"jobx", fun _ => some "boom", 3, 60, []⟩ 7 1 initialCheckpoint 0).result.attempt = 3
    ∧ (execute_job ⟨"jobx", fun _ => some "boom", 3, 60, []⟩ 7 1 initialCheckpoint 0).checkpoint.status
        = Status.failed
    ∧ (execute_job ⟨"jobx", fun _ => some "boom", 3, 60, []⟩ 7 1 initialCheckpoint 0).checkpoint.last_attempt
        = 3
    ∧ (execute_job ⟨"jobx", fun _ => some "boom", 3, 60, []⟩ 7 1 initialCheckpoint 0).checkpoint.last_error.length
        ≤ 2000 := by
  have h := final_failure ⟨"jobx", fun _ => some "boom", 3, 60, []⟩ 7 initialCheckpoint 0
    (by decide) (fun i h1 h2 => rfl)
  exact ⟨h.1, h.2.1, h.2.2.1, h.2.2.2.1, h.2.2.2.2.2.1⟩

/-- C4 (amended): retry semantics.  When retry_delay_seconds is positive, a
job whose function raises on its first k invocations (k < max_attempts,
attempts starting at 1) and succeeds on invocation k+1 is recorded with a
SUCCESS result and checkpoint, last_attempt = k+1, and exactly k sleeps are
performed between attempts, the i-th lasting
retry_delay_seconds * 2 ^ (i-1) seconds; when retry_delay_seconds is zero
the executor performs no sleep call at all. -/
theorem retry_semantics (job : EtlJobDefinition) (window : Nat) (cp : Checkpoint)
    (clock : Nat) (k : Nat)
    (hdelay : 0 < job.retry_delay_seconds)
    (hk : k < job.max_attempts)
    (hfail : ∀ i, 1 ≤ i → i ≤ k → (job.func i).isSome)
    (hsucc : job.func (k + 1) = none) :
    (execute_job job window 1 cp clock).result.status = Status.success
    ∧ (execute_job job window 1 cp clock).result.attempt = k + 1
    ∧ (execute_job job window 1 cp clock).checkpoint.status = Status.success
    ∧ (execute_job job window 1 cp clock).checkpoint.last_attempt = k + 1
    ∧ (execute_job job window 1 cp clock).invocations = k + 1
    ∧ (execute_job job window 1 cp clock).sleeps
        = (List.range k).map (fun i => job.retry_delay_seconds * ((2 : ℚ) ^ i))
    ∧ (execute_job job window 1 cp clock).sleeps.length = k := by
  simp only [execute_job]
  have harg : ∀ d, d < k → ((job.func (0 + 1 + d)).isSome) := by
    intro d hd
    have hidx : 0 + 1 + d = d + 1 := by omega
    rw [hidx]
    exact hfail (d + 1) (by omega) (by omega)
  have hsucc2 : job.func (0 + k + 1) = none := by
    have hidx : 0 + k + 1 = k + 1 := by omega
    rw [hidx]
    exact hsucc
  obtain ⟨h1, h2, h34, h4, h5, h6, h7⟩ :=
    execLoop_failUpTo job window 1 hdelay k (job.max_attempts + 2) 1 cp clock 0 []
      (by omega) (by omega) harg hsucc2
  have hone : 1 + k = k + 1 := by omega
  rw [hone] at h2 h5

  have hmap : List.map (fun d => job.retry_delay_seconds * (2 : ℚ) ^ (1 + d + 1 - 1 - 1))
        (List.range k)
      = List.map (fun i => job.retry_delay_seconds * (2 : ℚ) ^ i) (List.range k) := by
    apply List.map_congr_left
    intro a ha
    congr 2
    omega
  rw [hmap] at h7
  refine ⟨h1, h2, h4, h5, ?_, ?_, ?_⟩
  · rw [h34]
    omega
  · rw [h7]
    simp
  · rw [h7]
    simp

/-- Closed instance of retry_semantics: a job with delay 60 failing twice
then succeeding is SUCCESS on attempt 3 after sleeps 60 and 120. -/
theorem retry_semantics_witness :
    (execute_job ⟨"jobr", fun i => if i ≤ 2 then some "e" else none, 4, 60, []⟩ 5 1
        initialCheckpoint 0).result.status = Status.success
    ∧ (execute_job ⟨"jobr", fun i => if i ≤ 2 then some "e" else none, 4, 60, []⟩ 5 1
        initialCheckpoint 0).result.attempt = 3
    ∧ (execute_job ⟨"jobr", fun i => if i ≤ 2 then some "e" else none, 4, 60, []⟩ 5 1
        initialCheckpoint 0).sleeps
        = (List.range 2).map (fun i => (60 : ℚ) * ((2 : ℚ) ^ i)) := by
  have h := retry_semantics ⟨"jobr", fun i => if i ≤ 2 then some "e" else none, 4, 60, []⟩ 5
    initialCheckpoint 0 2 (by norm_num) (by decide) (fun i h1 h2 => by simp [h2]) rfl
  exact ⟨h.1, h.2.1, h.2.2.2.2.2.1⟩

/-- C4 counterexample: with retry_delay_seconds = 0 (a legal configuration,
used by the repository tests) a job that raises once and succeeds on the
second invocation performs zero sleep calls, not k = 1: the backoff is
0 * 2 ^ 0 = 0 and the if backoff > 0 guard skips the sleep call. -/
theorem retry_sleep_claim_counterexample :
    (execute_job ⟨"job_retry", fun i => if i = 1 then some "x" else none, 2, 0, []⟩ 0 1
        initialCheckpoint 0).result.status = Status.success
    ∧ (execute_job ⟨"job_retry", fun i => if i = 1 then some "x" else none, 2, 0, []⟩ 0 1
        initialCheckpoint 0).result.attempt = 2
    ∧ (execute_job ⟨"job_retry", fun i => if i = 1 then some "x" else none, 2, 0, []⟩ 0 1
        initialCheckpoint 0).sleeps.length = 0
    ∧ (0 : Nat) ≠ 1 := by
  refine ⟨rfl, rfl, ?_, by decide⟩
  simp only [execute_job, execLoop]
  norm_num

end Runner

namespace Runner

/-- C3: dependency skip propagation.  For jobs A and B where B depends on A,
whenever the executor result of A for the window is not SUCCESS, B is
recorded SKIPPED with attempt 0, its checkpoint is written SKIPPED with
last_attempt 0, last_started_at equal to last_completed_at and a last_error
naming A, the function of B is never invoked, and run returns a result map
holding entries for both jobs without raising. -/
theorem dependency_skip (A B : EtlJobDefinition) (window : Nat)
    (hAdep : A.dependencies = []) (hBdep : B.dependencies = [A.name])
    (hne : A.name ≠ B.name) (hname : A.name ≠ "")
    (hAfail : (singleRunOut A window initState).result.status ≠ Status.success) :
    lookupResult (pairRun A B window).results B.name
        = some ⟨Status.skipped, 0, some 0⟩
    ∧ ((pairRun A B window).store B.name).status = Status.skipped
    ∧ ((pairRun A B window).store B.name).last_attempt = 0
    ∧ ((pairRun A B window).store B.name).last_started_at
        = ((pairRun A B window).store B.name).last_completed_at
    ∧ ((pairRun A B window).store B.name).last_error
        = "Skipped due to unmet dependencies: " ++ A.name
    ∧ (pairRun A B window).invocations B.name = 0
    ∧ lookupResult (pairRun A B window).results A.name
        = some (singleRunOut A window initState).result := by
  have hne2 : B.name ≠ A.name := Ne.symm hne
  simp [singleRunOut, prepare_run, initState, initialCheckpoint] at hAfail
  simp [pairRun, run, runLoop, scanPass, initState, singleRunOut,
    unmet_dependencies, depFailed, lookupResult, updateStore, bumpInvocations,
    prepare_run, initialCheckpoint, mark_skipped, sortStrings, insertSorted,
    String.intercalate, String.intercalate.go, markAllSkipped,
    hAdep, hBdep, hne, hne2, hname, hAfail]

/-- Closed instance of dependency_skip: job "votes" depending on the always
failing job "mps" is skipped with attempt 0 and an error naming "mps". -/
theorem dependency_skip_witness :
    lookupResult (pairRun ⟨"mps", fun _ => some "boom", 1, 60, []⟩
        ⟨"votes", fun _ => none, 2, 60, ["mps"]⟩ 0).results "votes"
      = some ⟨Status.skipped, 0, some 0⟩
    ∧ ((pairRun ⟨"mps", fun _ => some "boom", 1, 60, []⟩
        ⟨"votes", fun _ => none, 2, 60, ["mps"]⟩ 0).store "votes").last_error
      = "Skipped due to unmet dependencies: " ++ "mps"
    ∧ (pairRun ⟨"mps", fun _ => some "boom", 1, 60, []⟩
        ⟨"votes", fun _ => none, 2, 60, ["mps"]⟩ 0).invocations "votes" = 0 := by
  have h := dependency_skip ⟨"mps", fun _ => some "boom", 1, 60, []⟩
    ⟨"votes", fun _ => none, 2, 60, ["mps"]⟩ 0 rfl rfl (by decide) (by decide) (by decide)
  exact ⟨h.1, h.2.2.2.2.1, h.2.2.2.2.2.1⟩

/-- A job function that returns normally makes the executor succeed on its
first attempt, advancing the clock three ticks (monotonic start, monotonic
end, completion timestamp) with a single invocation and no sleep. -/
theorem execute_job_immediate_success (job : EtlJobDefinition) (window : Nat)
    (cp : Checkpoint) (clock : Nat)
    (hmax : 1 ≤ job.max_attempts) (hsucc : job.func 1 = none) :
    execute_job job window 1 cp clock
      = ⟨⟨Status.success, 1, some 1⟩, mark_success cp (clock + 2) 1 1, clock + 3, 1, []⟩ := by
  have hng : ¬ job.max_attempts < 1 := by omega
  obtain ⟨f, hf⟩ : ∃ f, job.max_attempts + 2 = f + 1 := ⟨job.max_attempts + 1, rfl⟩
  simp only [execute_job, hf, execLoop, if_neg hng, hsucc]
  norm_num

/-- C2: idempotent re-run.  For a dependency-free job whose function always
returns normally, running the coordinator twice in succession for the same
window reports SUCCESS on both runs (attempt 1) while the job function is
invoked exactly once across the two executions: the second run observes the
prior checkpoint and does not run the job. -/
theorem idempotent_rerun (job : EtlJobDefinition) (window : Nat)
    (hdep : job.dependencies = [])
    (hmax : 1 ≤ job.max_attempts)
    (hfunc : ∀ i, job.func i = none) :
    (lookupResult (run [job] window initState).results job.name).map
        JobExecutionResult.status = some Status.success
    ∧ (lookupResult (run [job] window initState).results job.name).map
        JobExecutionResult.attempt = some 1
    ∧ (lookupResult (run [job] window (freshRun (run [job] window initState))).results
        job.name).map JobExecutionResult.status = some Status.success
    ∧ (lookupResult (run [job] window (freshRun (run [job] window initState))).results
        job.name).map JobExecutionResult.attempt = some 1
    ∧ (run [job] window (freshRun (run [job] window initState))).invocations job.name = 1 := by
  have hout := execute_job_immediate_success job window
    ⟨some window, some 0, none, 1, Status.running, "", none⟩ 1 hmax (hfunc 1)
  simp [run, runLoop, scanPass, initState, freshRun, unmet_dependencies, depFailed,
    lookupResult, updateStore, bumpInvocations, prepare_run, initialCheckpoint,
    mark_success, markAllSkipped, hdep, hout]

/-- Closed instance of idempotent_rerun for the job "mps". -/
theorem idempotent_rerun_witness :
    (lookupResult (run [⟨"mps", fun _ => none, 2, 60, []⟩] 11 initState).results "mps").map
        JobExecutionResult.status = some Status.success
    ∧ (run [(⟨"mps", fun _ => none, 2, 60, []⟩ : EtlJobDefinition)] 11
        (freshRun (run [⟨"mps", fun _ => none, 2, 60, []⟩] 11 initState))).invocations "mps"
      = 1 := by
  have h := idempotent_rerun ⟨"mps", fun _ => none, 2, 60, []⟩ 11 rfl (by decide) (fun _ => rfl)
  exact ⟨h.1, h.2.2.2.2⟩

end Runner

namespace Adapter

theorem registerFailures_opens (cfg : AdapterConfig) :
    ∀ (ts : List ℚ) (t : ℚ) (c : Nat),
      c + (ts ++ [t]).length = cfg.circuit_breaker_threshold →
      registerFailures cfg (ts ++ [t]) ⟨c, none⟩
        = ⟨0, some (t + cfg.circuit_breaker_cooldown)⟩ := by
  intro ts
  induction ts with
  | nil =>
    intro t c hlen
    simp only [List.nil_append, List.length_cons, List.length_nil] at hlen
    simp only [registerFailures, List.nil_append, List.foldl_cons, List.foldl_nil,
      register_failure]
    rw [if_neg (by omega)]
  | cons s rest ih =>
    intro t c hlen
    simp only [List.length_append, List.length_cons, List.length_nil] at hlen ih
    simp only [List.cons_append, registerFailures, List.foldl_cons, register_failure]
    rw [if_pos (by omega)]
    exact ih t (c + 1) (by omega)

/-- C6: circuit breaker.  From a clean adapter state, threshold consecutive
terminal failures (the last at monotonic time t) open the circuit until
t + cooldown and reset the consecutive-failure counter to zero; while the
monotonic clock is before that deadline every request attempt raises the
circuit-open error at the gate without performing any HTTP request; once
the deadline has passed the allowance check clears the breaker; and any
successful (non-retryable-status) response clears both the counter and the
open deadline. -/
theorem circuit_breaker (cfg : AdapterConfig) (ts : List ℚ) (t now now2 : ℚ)
    (st : AdapterState) (n : Nat)
    (hlen : (ts ++ [t]).length = cfg.circuit_breaker_threshold) :
    registerFailures cfg (ts ++ [t]) initAdapterState
        = ⟨0, some (t + cfg.circuit_breaker_cooldown)⟩
    ∧ (now < t + cfg.circuit_breaker_cooldown →
        request_attempt_gate now ⟨0, some (t + cfg.circuit_breaker_cooldown)⟩ n = (none, n))
    ∧ (t + cfg.circuit_breaker_cooldown ≤ now2 →
        ensure_circuit_allowance now2 ⟨0, some (t + cfg.circuit_breaker_cooldown)⟩
          = some ⟨0, none⟩)
    ∧ record_success_reset st = ⟨0, none⟩ := by

  refine ⟨?_, ?_, ?_, rfl⟩
  · exact registerFailures_opens cfg ts t 0 (by omega)
  · intro hnow
    simp only [request_attempt_gate, ensure_circuit_allowance]
    rw [if_neg (not_le.mpr hnow)]
  · intro hnow2
    simp only [ensure_circuit_allowance]
    rw [if_pos hnow2]

/-- Closed instance of circuit_breaker with threshold 3 and cooldown 120:
failures at times 1, 2, 3 open the circuit until 123; an attempt at time 50
is rejected with no HTTP request; the check at time 200 clears the breaker;
and a success resets an arbitrary dirty state. -/
theorem circuit_breaker_witness :
    registerFailures ⟨3, 120⟩ ([1, 2] ++ [3]) initAdapterState = ⟨0, some (3 + 120)⟩
    ∧ request_attempt_gate 50 ⟨0, some (3 + 120)⟩ 5 = (none, 5)
    ∧ ensure_circuit_allowance 200 ⟨0, some (3 + 120)⟩ = some ⟨0, none⟩
    ∧ record_success_reset ⟨2, some 7⟩ = ⟨0, none⟩ := by
  have h := circuit_breaker ⟨3, 120⟩ [1, 2] 3 50 200 ⟨2, some 7⟩ 5 (by decide)
  exact ⟨h.1, h.2.1 (by norm_num), h.2.2.1 (by norm_num), h.2.2.2⟩

end Adapter

namespace HttpRetry

theorem fetchLoop_permanent (s : Nat) (responses : Nat → Nat) (retries : Nat)
    (retrySet : List Nat)
    (hresp : ∀ i, responses i = s)
    (hnotretry : s ∉ retrySet) (hs : 400 ≤ s ∧ s < 600) (j : Nat) :
    ∀ (attempt requests sleeps fuel : Nat) (lastError : Option LastErr),
      attempt + j = retries →
      j < fuel →
      fetchLoop responses retries retrySet [] attempt lastError requests sleeps fuel
        = (.raised none, requests + j + 1, sleeps + j) := by
  have hraise : raiseForStatusRaises s = true := by
    simp only [raiseForStatusRaises, decide_eq_true_eq]
    omega
  induction j with
  | zero =>
    intro attempt requests sleeps fuel lastError hj hfuel
    obtain ⟨f, rfl⟩ : ∃ f, fuel = f + 1 := ⟨fuel - 1, by omega⟩
    simp only [fetchLoop, hresp]
    rw [if_neg (by omega : ¬ retries < attempt)]
    simp only [ne_eq, not_true_eq_false, if_neg hnotretry, hraise, if_pos rfl,
      if_false, if_true]
    rw [if_pos (by omega : retries < attempt + 1)]
    simp [finalRaise]
  | succ j ih =>
    intro attempt requests sleeps fuel lastError hj hfuel
    obtain ⟨f, rfl⟩ : ∃ f, fuel = f + 1 := ⟨fuel - 1, by omega⟩
    simp only [fetchLoop, hresp]
    rw [if_neg (by omega : ¬ retries < attempt)]
    simp only [ne_eq, not_true_eq_false, if_neg hnotretry, hraise, if_pos rfl,
      if_false, if_true]
    rw [if_neg (by omega : ¬ retries < attempt + 1)]
    rw [ih (attempt + 1) (requests + 1) (sleeps + 1) f _ (by omega) (by omega)]
    have h1 : requests + 1 + j + 1 = requests + (j + 1) + 1 := by omega
    have h2 : sleeps + 1 + j = sleeps + (j + 1) := by omega
    rw [h1, h2]

/-- C8 (amended): permanent 4xx handling.  In the BaseAdapter request core
a 4xx status outside the retryable set is returned after exactly one
request with no retry and no backoff sleep; fetch_with_backoff however
funnels the raise_for_status error of such a status into its blanket except
handler, so the failure surfaces only after retries + 1 requests with a
backoff sleep before each of the retries re-attempts. -/
theorem permanent_http_not_retried (s : Nat) (responses : Nat → Nat)
    (retries max_retries : Nat)
    (hresp : ∀ i, responses i = s)
    (h4 : 400 ≤ s ∧ s < 500) (hnr : s ∉ ([408, 425, 429] : List Nat)) :
    Adapter.request_with_retries_statuses max_retries responses = (some s, 1, 0)
    ∧ fetch_with_backoff responses retries DEFAULT_RETRY_STATUS []
        = (.raised none, retries + 1, retries) := by
  simp only [List.mem_cons, List.not_mem_nil, or_false, not_or] at hnr
  constructor
  · have hsr : Adapter.should_retry_status s = false := by
      simp only [Adapter.should_retry_status]
      rw [if_neg (by omega), if_neg (by omega), if_neg (by omega)]
    simp only [Adapter.request_with_retries_statuses]
    obtain ⟨f, hf⟩ : ∃ f, max_retries + 2 = f + 1 := ⟨max_retries + 1, rfl⟩
    rw [hf]
    simp only [Adapter.requestStatusLoop, hresp, hsr, Bool.false_eq_true, if_false]
  · have hnd : s ∉ DEFAULT_RETRY_STATUS := by
      simp only [DEFAULT_RETRY_STATUS, List.mem_cons, List.not_mem_nil, or_false, not_or]
      omega
    have h := fetchLoop_permanent s responses retries DEFAULT_RETRY_STATUS hresp hnd
      (by omega) retries 0 0 0 (retries + 2) none (by omega) (by omega)
    simpa using h

/-- Closed instance of permanent_http_not_retried at status 404 with the
default budgets (max_retries 3 for the adapter, retries 4 for
fetch_with_backoff). -/
theorem permanent_http_not_retried_witness :
    Adapter.request_with_retries_statuses 3 (fun _ => 404) = (some 404, 1, 0)
    ∧ fetch_with_backoff (fun _ => 404) 4 DEFAULT_RETRY_STATUS []
        = (.raised none, 4 + 1, 4) := by
  have h := permanent_http_not_retried 404 (fun _ => 404) 4 3 (fun _ => rfl)
    (by omega) (by decide)
  exact ⟨h.1, h.2⟩

/-- C8 counterexample: a url that always answers 404 with the default retry
budget of 4 is requested five times, with four backoff sleeps, before
fetch_with_backoff surfaces the failure; the claim says no retry attempt
and no backoff sleep are performed and the failure surfaces after the
first request. -/
theorem permanent_http_claim_counterexample :
    fetch_with_backoff (fun _ => 404) 4 DEFAULT_RETRY_STATUS []
      = (.raised none, 5, 4)
    ∧ (5 : Nat) ≠ 1 ∧ (4 : Nat) ≠ 0 := by
  exact ⟨by decide, by decide, by decide⟩

end HttpRetry

namespace ParlVotes

theorem skipDueToWatermark_iff (wm : VotesWatermark) (v : VoteRecord) :
    skipDueToWatermark wm v = true
      ↔ ((∃ wts, wm.timestamp = some wts ∧ v.event_dt < wts)
          ∨ (∃ wts n, wm.timestamp = some wts ∧ v.event_dt = wts
              ∧ wm.meta_parliament = some v.parliament
              ∧ wm.meta_session = some v.session
              ∧ wm.meta_vote = some n ∧ v.vote_number ≤ n)) := by
  cases hts : wm.timestamp with
  | none => simp [skipDueToWatermark, hts]
  | some wts =>
    by_cases hlt : v.event_dt < wts
    · simp [skipDueToWatermark, hts, hlt]
    · by_cases heq : v.event_dt = wts
      · cases hmv : wm.meta_vote with
        | none => simp [skipDueToWatermark, hts, hlt, heq, hmv]
        | some n =>
          simp only [skipDueToWatermark, hts, hlt, heq, hmv]
          simp [and_assoc]
      · simp [skipDueToWatermark, hts, hlt, heq]

theorem importStep_no_update (wm : VotesWatermark) (st : ImportState)
    (v : VoteRecord) (st1 : ImportState) (ev : Event)
    (h : importStep wm st v = .ok (st1, ev)) : ev.isUpdate = false := by
  unfold importStep at h
  repeat' split at h
  all_goals first
    | (simp only [Except.ok.injEq, Prod.mk.injEq] at h
       obtain ⟨-, rfl⟩ := h
       rfl)
    | simp at h

theorem importLoop_no_update (wm : VotesWatermark) :
    ∀ (votes : List VoteRecord) (st stf : ImportState) (evs : List Event),
      importLoop wm st votes = .ok (stf, evs) →
      ∀ ev ∈ evs, ev.isUpdate = false := by
  intro votes
  induction votes with
  | nil =>
    intro st stf evs h
    simp only [importLoop, Except.ok.injEq, Prod.mk.injEq] at h
    rw [← h.2]
    intro ev hev
    exact absurd hev (by simp)
  | cons v rest ih =>
    intro st stf evs h
    cases hstep : importStep wm st v with
    | error e => simp [importLoop, hstep] at h
    | ok out =>
      obtain ⟨st1, ev1⟩ := out
      cases hloop : importLoop wm st1 rest with
      | error e => simp [importLoop, hstep, hloop] at h
      | ok out2 =>
        obtain ⟨st2, evs2⟩ := out2
        simp only [importLoop, hstep, hloop, Except.ok.injEq, Prod.mk.injEq] at h
        intro ev hev
        rw [← h.2] at hev
        cases hev with
        | head => exact importStep_no_update wm st v st1 ev1 hstep
        | tail _ htail => exact ih st1 st2 evs2 hloop ev htail

theorem update_last_aux (evs : List Event) (upd : Event)
    (hno : ∀ ev ∈ evs, ev.isUpdate = false) :
    ∀ i (hi : i < (evs ++ [upd]).length),
      ((evs ++ [upd]).get ⟨i, hi⟩).isUpdate = true → i + 1 = (evs ++ [upd]).length := by
  induction evs with
  | nil =>
    intro i hi h
    simp only [List.nil_append, List.length_cons, List.length_nil] at hi ⊢
    omega
  | cons e rest ih =>
    intro i hi h
    cases i with
    | zero =>
      simp only [List.cons_append, List.get] at h
      exact absurd h (by simp [hno e (List.mem_cons_self e rest)])
    | succ n =>
      simp only [List.cons_append, List.length_cons] at hi ⊢
      have := ih (fun ev hev => hno ev (List.mem_cons_of_mem e hev)) n
        (by simpa using Nat.lt_of_succ_lt_succ hi) (by simpa using h)
      omega

/-- C9 (amended): vote importer watermark gate.  A fetched vote is skipped
by the loop exactly when the watermark comparison holds (strictly before
the stored timestamp, or at an equal timestamp with matching parliament and
session metadata and a vote number at or below the recorded one) AND the
vote already exists in the database -- a vote behind the watermark that is
missing from the database is processed, not skipped.  Moreover, in any
completed run the watermark row is written at most once, and only as the
very last action, after every record has been processed. -/
theorem vote_importer_watermark_gate (wm : VotesWatermark) (db : VotesDb)
    (votes : List VoteRecord) (st : ImportState) (v : VoteRecord)
    (stf : ImportState) (trace : List Event)
    (hrun : import_votes wm db votes = .ok (stf, trace)) :
    (importStep wm st v = .ok (st, .skippedWatermark v.parliament v.session v.vote_number)
      ↔ skipGateSpec wm st.db v)
    ∧ trace.countP (fun ev => ev.isUpdate) ≤ 1
    ∧ (∀ i (hi : i < trace.length),
        (trace.get ⟨i, hi⟩).isUpdate = true → i + 1 = trace.length) := by
  refine ⟨?_, ?_⟩
  · constructor
    · intro h
      unfold importStep at h
      split at h
      · rename_i hcond
        simp only [Bool.and_eq_true, decide_eq_true_eq] at hcond
        exact ⟨(skipDueToWatermark_iff wm v).mp hcond.1, hcond.2⟩
      · split at h
        · simp only [Except.ok.injEq, Prod.mk.injEq] at h
          exact absurd h.2 (by simp)
        · split at h
          · simp at h
          · simp only [Except.ok.injEq, Prod.mk.injEq] at h
            exact absurd h.2 (by simp)
    · intro hspec
      have hskip : skipDueToWatermark wm v = true :=
        (skipDueToWatermark_iff wm v).mpr hspec.1
      unfold importStep
      rw [if_pos (by simp [hskip, hspec.2])]
  · unfold import_votes at hrun
    cases hloop : importLoop wm (initImportState wm db) votes with
    | error e => simp [hloop] at hrun
    | ok out =>
      obtain ⟨st0, evs⟩ := out
      simp only [hloop] at hrun
      have hno := importLoop_no_update wm votes (initImportState wm db) st0 evs hloop
      have hcount : evs.countP (fun ev => ev.isUpdate) = 0 := by
        rw [List.countP_eq_zero]
        intro a ha
        simp [hno a ha]
      split at hrun
      · simp only [Except.ok.injEq, Prod.mk.injEq] at hrun
        rw [← hrun.2]
        constructor
        · rw [List.countP_append, hcount]
          norm_num [List.countP, List.countP.go, Event.isUpdate]
        · exact update_last_aux evs (.watermarkUpdated st0.latest_token st0.latest_timestamp) hno
      · simp only [Except.ok.injEq, Prod.mk.injEq] at hrun
        rw [← hrun.2]
        constructor
        · rw [hcount]
          omega
        · intro i hi hupd
          have hfalse := hno (evs.get ⟨i, hi⟩) (List.get_mem evs i hi)
          rw [hfalse] at hupd
          exact absurd hupd (by simp)

/-- C9 counterexample: with a stored watermark at timestamp 10 covering
vote 7 of parliament 44 session 1, a fetched vote with the strictly older
timestamp 5 that has no VoteQuestion row is fully processed (its row is
inserted), not skipped as the claim requires. -/
theorem vote_importer_gate_counterexample :
    import_votes ⟨some 10, some "t", some 44, some 1, some 7⟩ ⟨[]⟩
        [⟨44, 1, 8, 5, "Negatived", true⟩]
      = .ok (⟨⟨[(44, 1, 8)]⟩, some 10, some "t", 7⟩, [.processed 44 1 8])
    ∧ Event.processed 44 1 8 ≠ Event.skippedWatermark 44 1 8 := by
  exact ⟨rfl, by decide⟩

/-- Closed instance of vote_importer_watermark_gate: at the same stored
watermark, vote 8 with timestamp 5 that IS present in the database is
skipped, the skip condition holds, and the run writes the watermark at most
once, as its last event. -/
theorem vote_importer_watermark_gate_witness :
    (importStep ⟨some 10, some "t", some 44, some 1, some 7⟩
        ⟨⟨[(44, 1, 8)]⟩, some 10, some "t", 7⟩ ⟨44, 1, 8, 5, "Negatived", true⟩
      = .ok (⟨⟨[(44, 1, 8)]⟩, some 10, some "t", 7⟩, .skippedWatermark 44 1 8)
      ↔ skipGateSpec ⟨some 10, some "t", some 44, some 1, some 7⟩ ⟨[(44, 1, 8)]⟩
          ⟨44, 1, 8, 5, "Negatived", true⟩)
    ∧ ([Event.processed 44 1 8] : List Event).countP (fun ev => ev.isUpdate) ≤ 1 := by
  have h := vote_importer_watermark_gate ⟨some 10, some "t", some 44, some 1, some 7⟩ ⟨[]⟩
    [⟨44, 1, 8, 5, "Negatived", true⟩] ⟨⟨[(44, 1, 8)]⟩, some 10, some "t", 7⟩
    ⟨44, 1, 8, 5, "Negatived", true⟩ ⟨⟨[(44, 1, 8)]⟩, some 10, some "t", 7⟩
    [.processed 44 1 8] rfl
  exact ⟨h.1, h.2.1⟩

/-- C10: the vote importer tolerates a failing French-description lookup
(the vote is processed identically whether or not the lookup succeeds),
but its unrecognised-decision path evaluates the unbound name votelisturl:
a fetched vote whose DecisionResultName is, say, "Carried" makes
import_votes raise NameError for votelisturl instead of the intended
Exception. -/
theorem votelisturl_name_error :
    import_votes ⟨none, none, none, none, none⟩ ⟨[]⟩ [⟨44, 1, 9, 5, "Carried", true⟩]
      = .error (.nameError "votelisturl")
    ∧ import_votes ⟨none, none, none, none, none⟩ ⟨[]⟩ [⟨44, 1, 9, 5, "Negatived", false⟩]
      = .ok (⟨⟨[(44, 1, 9)]⟩, some 5, some (voteToken ⟨44, 1, 9, 5, "Negatived", false⟩), 9⟩,
          [.processed 44 1 9,
            .watermarkUpdated (some (voteToken ⟨44, 1, 9, 5, "Negatived", false⟩)) (some 5)])
    ∧ import_votes ⟨none, none, none, none, none⟩ ⟨[]⟩ [⟨44, 1, 9, 5, "Negatived", true⟩]
      = .ok (⟨⟨[(44, 1, 9)]⟩, some 5, some (voteToken ⟨44, 1, 9, 5, "Negatived", true⟩), 9⟩,
          [.processed 44 1 9,
            .watermarkUpdated (some (voteToken ⟨44, 1, 9, 5, "Negatived", true⟩)) (some 5)]) := by
  refine ⟨rfl, rfl, rfl⟩

end ParlVotes
